import Mathlib

/-!
Shallow embedding of `drive/list.go` (package `drive` of the gdrive fork):
the paginated file lister (`listAllFiles`), the `List` operation, and the
two renderers (`PrintFileList`, `PrintTabbedFileList`).

Remote pagination is modelled by handing `listAllFiles` a remote service:
a function from the configured page size to the ordered sequence of page
fetch outcomes the service would produce for that call.  Each outcome is
either a page of records or a fetch failure, matching the semantics of
`googleapi ... Pages`: the callback is invoked after each successful page,
an error from either the fetch or the callback ends pagination and is
returned.
-/

namespace GDrive

/-- One file-metadata record, with the fields requested by `List`
(line 30 of list.go): id, name, md5Checksum, mimeType, size, createdTime,
parents, headRevisionId. -/
structure FileRec where
  id : String
  name : String
  md5Checksum : String
  mimeType : String
  size : Int
  createdTime : String
  parents : List String
  headRevisionId : String
deriving DecidableEq, Repr, Inhabited

/-- Errors inside `listAllFiles`: the controlled-stop sentinel created at
line 88 (`fmt.Errorf("Controlled stop")`, compared by identity, so no
remote failure can coincide with it), or a transport/API error carried by
a failed page fetch. -/
inductive GoErr where
  | controlledStop
  | apiErr (msg : String)
deriving DecidableEq, Repr

/-- Outcome of one remote page fetch: a page of records, or a failure. -/
inductive PageFetch where
  | ok (recs : List FileRec)
  | err (msg : String)
deriving DecidableEq, Repr

/-- Identity of an output sink (an `io.Writer` in Go).  `stdout` is the
process standard output `os.Stdout`; `sink i` is any other writer a caller
may provide. -/
inductive Dest where
  | stdout
  | sink (i : Nat)
deriving DecidableEq, Repr

/-- Page size computation, lines 81-86 of list.go:
`if args.maxFiles > 0 && args.maxFiles < 1000 { pageSize = args.maxFiles }
else { pageSize = 1000 }`. -/
def pageSize (maxFiles : Int) : Int :=
  if 0 < maxFiles ∧ maxFiles < 1000 then maxFiles else 1000

/-- The `Pages` loop with the callback of lines 90-97: each successful page
is appended to the accumulator; then, if `maxFiles > 0` and the
accumulated count has reached `maxFiles`, the callback returns the
controlled-stop sentinel, which `Pages` returns.  A fetch failure ends
pagination with that error.  Returns the accumulated records (the `files`
variable captured by the closure) and the error `Pages` returned, if any. -/
def pagesRun (maxFiles : Int) : List PageFetch → List FileRec → List FileRec × Option GoErr
  | [], acc => (acc, none)
  | PageFetch.err msg :: _, acc => (acc, some (GoErr.apiErr msg))
  | PageFetch.ok recs :: rest, acc =>
    let acc2 := acc ++ recs
    if 0 < maxFiles ∧ maxFiles ≤ (acc2.length : Int) then
      (acc2, some GoErr.controlledStop)
    else
      pagesRun maxFiles rest acc2

/-- Final truncation, lines 105-108:
`if args.maxFiles > 0 { n := min(len(files), int(args.maxFiles)); return files[:n] }`;
otherwise the accumulated list is returned whole. -/
def truncateFiles (maxFiles : Int) (files : List FileRec) : List FileRec :=
  if 0 < maxFiles then files.take (min files.length maxFiles.toNat) else files

/-- `listAllFiles`, lines 78-110: compute the page size, run the paginated
fetch, return any error other than the controlled-stop sentinel unchanged
(`if err != nil && err != controlledStop { return nil, err }`), otherwise
return the (possibly truncated) accumulated records.  `remote` maps the
page size passed to the service to the page-fetch outcomes it yields. -/
def listAllFiles (maxFiles : Int) (remote : Int → List PageFetch) :
    Except GoErr (List FileRec) :=
  let r := pagesRun maxFiles (remote (pageSize maxFiles)) []
  match r.2 with
  | some GoErr.controlledStop => Except.ok (truncateFiles maxFiles r.1)
  | some e => Except.error e
  | none => Except.ok (truncateFiles maxFiles r.1)

/-- Modelled from the spec: name truncation to the configured column
width — "a name longer than the configured width is shortened to that
width (exact truncation rule ... hard cut at width with no ellipsis)".
The Go helper `truncateString` lives outside list.go and is not in src/. -/
def truncateString (s : String) (maxLen : Int) : String :=
  if 0 < maxLen ∧ maxLen < (s.length : Int) then
    ((s.toList.take maxLen.toNat).asString)
  else s

/-- Modelled from the spec: "Size: raw byte count if byte-exact mode
requested, else a human-scaled size string (e.g. KB/MB)".  The Go helper
`formatSize` lives outside list.go and is not in src/. -/
def formatSize (bytes : Int) (sizeInBytes : Bool) : String :=
  if sizeInBytes then toString bytes
  else if bytes < 1024 then toString bytes ++ " B"
  else toString (bytes / 1024) ++ " KB"

/-- Modelled from the spec: "Created: formatted timestamp string".  The Go
helper `formatDatetime` lives outside list.go and is not in src/; the
formatting details are irrelevant to every claim, so it is a function of
the stored timestamp string. -/
def formatDatetime (s : String) : String := s

/-- Modelled from the spec: "dir if the record's MIME type denotes a
folder".  The Go helper `isDir` lives outside list.go and is not in src/. -/
def isDir (f : FileRec) : Bool :=
  f.mimeType == "application/vnd.google-apps.folder"

/-- Modelled from the spec: "bin if the record is classified as binary
content".  The Go helper `isBinary` lives outside list.go and is not in
src/; the classification rule is irrelevant to every claim, so a fixed
MIME check stands in. -/
def isBinary (f : FileRec) : Bool :=
  f.mimeType == "application/octet-stream"

/-- `filetype`, lines 182-189 of list.go. -/
def filetype (f : FileRec) : String :=
  if isDir f then "dir"
  else if isBinary f then "bin"
  else "doc"

/-- Arguments of `PrintFileList` / `PrintTabbedFileList`
(struct `PrintFileListArgs`, lines 112-120). -/
structure PrintFileListArgs where
  out : Dest
  files : List FileRec
  nameWidth : Int
  skipHeader : Bool
  sizeInBytes : Bool
  delimiter : Char
  useExtended : Bool
deriving DecidableEq, Repr

/-- The header row of the CSV renderer, lines 129-135:
`["Id","Name","Type","Size","Created"]`, extended by
`["Checksum","HeadRevisionId"]` when `UseExtended` is set. -/
def csvHeaders (useExtended : Bool) : List String :=
  let hs := ["Id", "Name", "Type", "Size", "Created"]
  if useExtended then hs ++ ["Checksum", "HeadRevisionId"] else hs

/-- One CSV record row, lines 142-154. -/
def csvRecord (useExtended : Bool) (nameWidth : Int) (sizeInBytes : Bool)
    (f : FileRec) : List String :=
  let r := [f.id, truncateString f.name nameWidth, filetype f,
            formatSize f.size sizeInBytes, formatDatetime f.createdTime]
  if useExtended then r ++ [f.md5Checksum, f.headRevisionId] else r

/-- One tabbed record row, the five `%s` fields of lines 170-176. -/
def tabbedRecord (nameWidth : Int) (sizeInBytes : Bool) (f : FileRec) :
    List String :=
  [f.id, truncateString f.name nameWidth, filetype f,
   formatSize f.size sizeInBytes, formatDatetime f.createdTime]

/-- What one render pass writes: the sink it writes to, the field
separator its writer is configured with, the header row if one is
emitted, and the record rows in order. -/
structure RenderOutput where
  dest : Dest
  fieldSep : Char
  header : Option (List String)
  rows : List (List String)
deriving DecidableEq, Repr

/-- `PrintFileList`, lines 123-159: builds `csv.NewWriter(os.Stdout)` —
the writer targets the process stdout, not `args.Out` — sets
`w.Comma = args.Delimiter`, writes the header unless `SkipHeader`, then
one record per file. -/
def PrintFileList (a : PrintFileListArgs) : RenderOutput :=
  { dest := Dest.stdout
    fieldSep := a.delimiter
    header := if a.skipHeader then none else some (csvHeaders a.useExtended)
    rows := a.files.map (csvRecord a.useExtended a.nameWidth a.sizeInBytes) }

/-- `PrintTabbedFileList`, lines 161-180: a `tabwriter` on `args.Out`,
tab-separated fields, five columns always (no extended columns), header
`Id\tName\tType\tSize\tCreated` unless `SkipHeader`. -/
def PrintTabbedFileList (a : PrintFileListArgs) : RenderOutput :=
  { dest := a.out
    fieldSep := Char.ofNat 9
    header := if a.skipHeader then none else
      some ["Id", "Name", "Type", "Size", "Created"]
    rows := a.files.map (tabbedRecord a.nameWidth a.sizeInBytes) }

/-- Arguments of `List` (struct `ListFilesArgs`, lines 14-25). -/
structure ListFilesArgs where
  out : Dest
  maxFiles : Int
  nameWidth : Int
  query : String
  sortOrder : String
  skipHeader : Bool
  sizeInBytes : Bool
  absPath : Bool
  useCsv : Bool
  useExtended : Bool
deriving DecidableEq, Repr

/-- Errors `List` can return: a list failure wrapped with context
(`fmt.Errorf("Failed to list files: %s", err)`, line 37) or a
path-resolution failure returned unchanged (line 46). -/
inductive ListError where
  | listFailed (e : GoErr)
  | pathFailed (msg : String)
deriving DecidableEq, Repr

/-- The absolute-path loop of lines 42-50.  `resolve` models
`pathfinder.absPath`, returning the Go pair (path, error).  As in
`f.Name, err = pathfinder.absPath(f)`, the record's name is assigned the
returned path even when resolution fails, the loop mutates the fetched
records in place in order, and the first failure aborts the loop with that
error, leaving the remaining records untouched. -/
def absPathPhase (resolve : FileRec → String × Option String) :
    List FileRec → List FileRec × Option String
  | [] => ([], none)
  | f :: rest =>
    let r := resolve f
    let f2 := { f with name := r.1 }
    match r.2 with
    | some e => (f2 :: rest, some e)
    | none =>
      let t := absPathPhase resolve rest
      (f2 :: t.1, t.2)

/-- The `PrintFileListArgs` value `List` constructs at lines 52-60: it
forwards `Out`, the files, `NameWidth`, `SkipHeader`, `SizeInBytes` and
`UseExtended`, and hardcodes `Delimiter: '|'` — `ListFilesArgs` carries no
delimiter field. -/
def listPrintArgs (a : ListFilesArgs) (files : List FileRec) :
    PrintFileListArgs :=
  { out := a.out
    files := files
    nameWidth := a.nameWidth
    skipHeader := a.skipHeader
    sizeInBytes := a.sizeInBytes
    delimiter := '|'
    useExtended := a.useExtended }

/-- The observable outcome of one `List` call: the returned error (if
any), the fetched records as they stand when `List` returns (they are
`*drive.File` pointers, mutated in place by the absolute-path loop), and
the render output if rendering was reached. -/
structure ListResult where
  err : Option ListError
  filesAfter : List FileRec
  output : Option RenderOutput
deriving DecidableEq, Repr

/-- `List`, lines 27-68: run `listAllFiles` (wrapping a failure with
context), then if `AbsPath` resolve every name in place (a failure is
returned immediately, before any rendering), then render with
`PrintFileList` when `UseCsv` and `PrintTabbedFileList` otherwise, and
return nil. -/
def List' (a : ListFilesArgs) (remote : Int → List PageFetch)
    (resolve : FileRec → String × Option String) : ListResult :=
  match listAllFiles a.maxFiles remote with
  | Except.error e =>
    { err := some (ListError.listFailed e), filesAfter := [], output := none }
  | Except.ok files =>
    let st := if a.absPath then absPathPhase resolve files else (files, none)
    match st.2 with
    | some msg =>
      { err := some (ListError.pathFailed msg), filesAfter := st.1,
        output := none }
    | none =>
      let pargs := listPrintArgs a st.1
      { err := none
        filesAfter := st.1
        output := some (if a.useCsv then PrintFileList pargs
                        else PrintTabbedFileList pargs) }

/-! ### Sample data for witnesses -/

/-- A sample record. -/
def fA : FileRec :=
  { id := "idA", name := "alpha", md5Checksum := "c1",
    mimeType := "text/plain", size := 10, createdTime := "2020-01-01",
    parents := ["root"], headRevisionId := "r1" }

/-- A sample record. -/
def fB : FileRec :=
  { id := "idB", name := "beta", md5Checksum := "c2",
    mimeType := "application/vnd.google-apps.folder", size := 0,
    createdTime := "2020-01-02", parents := ["root"], headRevisionId := "r2" }

/-- A sample record. -/
def fC : FileRec :=
  { id := "idC", name := "gamma", md5Checksum := "c3",
    mimeType := "application/octet-stream", size := 2048,
    createdTime := "2020-01-03", parents := ["root"], headRevisionId := "r3" }

/-- Two sample pages holding three records. -/
def pagesEx : List (List FileRec) := [[fA, fB], [fC]]

/-- A remote whose first fetch fails. -/
def remoteErr : Int → List PageFetch := fun _ => [PageFetch.err "boom"]

/-- Sample `List` arguments. -/
def argsEx : ListFilesArgs :=
  { out := Dest.sink 1, maxFiles := 0, nameWidth := 100, query := "",
    sortOrder := "", skipHeader := false, sizeInBytes := true,
    absPath := false, useCsv := true, useExtended := false }

/-- A resolver that always succeeds, prefixing the name. -/
def resolveOk : FileRec → String × Option String :=
  fun f => ("/root/" ++ f.name, none)

/-- A resolver that resolves `fA` and fails on everything else. -/
def resolveFail : FileRec → String × Option String :=
  fun f => if f.id == "idA" then ("/r/alpha", none) else ("", some "unresolved")

/-- The sample pages as an all-ok remote. -/
def remoteOkEx : Int → List PageFetch := fun _ => pagesEx.map PageFetch.ok

/-- Sample `List` arguments with absolute-path mode on. -/
def argsAbs : ListFilesArgs := { argsEx with absPath := true }

/-- The print arguments `List` would build from `argsEx` for two files. -/
def pargsEx : PrintFileListArgs := listPrintArgs argsEx [fA, fB]

/-- Equality of every `FileRec` field except `name`: what the
absolute-path loop of `List` must leave untouched. -/
def sameNonName (f g : FileRec) : Prop :=
  f.id = g.id ∧ f.md5Checksum = g.md5Checksum ∧ f.mimeType = g.mimeType ∧
  f.size = g.size ∧ f.createdTime = g.createdTime ∧ f.parents = g.parents ∧
  f.headRevisionId = g.headRevisionId

instance : ∀ f g, Decidable (sameNonName f g) := by
  intro f g
  unfold sameNonName
  infer_instance

/-! ### Pagination lemmas -/

/-- With a non-positive maximum the stop condition never fires and an
all-ok remote is drained completely. -/
theorem pagesRun_nonpos (N : Int) (hN : N ≤ 0) :
    ∀ (pages : List (List FileRec)) (acc : List FileRec),
      pagesRun N (pages.map PageFetch.ok) acc = (acc ++ pages.flatten, none) := by
  intro pages
  induction pages with
  | nil => intro acc; simp [pagesRun]
  | cons p rest ih =>
    intro acc
    have hcond : ¬(0 < N ∧ N ≤ (((acc ++ p).length : Nat) : Int)) := by
      intro h
      omega
    simp only [List.map_cons, pagesRun, if_neg hcond]
    rw [ih (acc ++ p)]
    simp

/-- Any two non-positive maxima drive the pagination loop identically. -/
theorem pagesRun_nonpos_eq (N M : Int) (hN : N ≤ 0) (hM : M ≤ 0) :
    ∀ (fetches : List PageFetch) (acc : List FileRec),
      pagesRun N fetches acc = pagesRun M fetches acc := by
  intro fetches
  induction fetches with
  | nil => intro acc; simp [pagesRun]
  | cons f rest ih =>
    intro acc
    cases f with
    | err msg => simp [pagesRun]
    | ok recs =>
      have hcN : ¬(0 < N ∧ N ≤ (((acc ++ recs).length : Nat) : Int)) := by
        intro h; omega
      have hcM : ¬(0 < M ∧ M ≤ (((acc ++ recs).length : Nat) : Int)) := by
        intro h; omega
      simp only [pagesRun, if_neg hcN, if_neg hcM]
      exact ih (acc ++ recs)

/-- With a non-positive maximum the controlled stop never fires. -/
theorem pagesRun_nonpos_no_stop (N : Int) (hN : N ≤ 0) :
    ∀ (fetches : List PageFetch) (acc : List FileRec),
      (pagesRun N fetches acc).2 ≠ some GoErr.controlledStop := by
  intro fetches
  induction fetches with
  | nil => intro acc; simp [pagesRun]
  | cons f rest ih =>
    intro acc
    cases f with
    | err msg => simp [pagesRun]
    | ok recs =>
      have hcN : ¬(0 < N ∧ N ≤ (((acc ++ recs).length : Nat) : Int)) := by
        intro h; omega
      simp only [pagesRun, if_neg hcN]
      exact ih (acc ++ recs)

/-- With a positive maximum, an all-ok remote either is drained completely
below the maximum without the stop firing, or the stop fires with at least
`N` records accumulated whose `N`-prefix agrees with the full
concatenation's. -/
theorem pagesRun_pos (N : Int) (hN : 0 < N) :
    ∀ (pages : List (List FileRec)) (acc : List FileRec),
      (acc.length : Int) < N →
      ((pagesRun N (pages.map PageFetch.ok) acc).2 = none ∧
       (pagesRun N (pages.map PageFetch.ok) acc).1 = acc ++ pages.flatten ∧
       (((acc ++ pages.flatten).length : Nat) : Int) < N) ∨
      ((pagesRun N (pages.map PageFetch.ok) acc).2 = some GoErr.controlledStop ∧
       N ≤ (((pagesRun N (pages.map PageFetch.ok) acc).1.length : Nat) : Int) ∧
       (pagesRun N (pages.map PageFetch.ok) acc).1.take N.toNat =
         (acc ++ pages.flatten).take N.toNat) := by
  intro pages
  induction pages with
  | nil =>
    intro acc hacc
    left
    simp [pagesRun]
    exact_mod_cast hacc
  | cons p rest ih =>
    intro acc hacc
    by_cases hstop : N ≤ (((acc ++ p).length : Nat) : Int)
    · right
      have hcond : 0 < N ∧ N ≤ (((acc ++ p).length : Nat) : Int) := ⟨hN, hstop⟩
      simp only [List.map_cons, pagesRun, if_pos hcond]
      refine ⟨by trivial, hstop, ?_⟩
      have hlen : N.toNat ≤ (acc ++ p).length := by omega
      rw [List.flatten_cons, ← List.append_assoc,
        List.take_append_of_le_length hlen]
    · have hcond : ¬(0 < N ∧ N ≤ (((acc ++ p).length : Nat) : Int)) := by
        intro h; exact hstop h.2
      simp only [List.map_cons, pagesRun, if_neg hcond]
      have hacc2 : (((acc ++ p).length : Nat) : Int) < N := by omega
      rcases ih (acc ++ p) hacc2 with ⟨h1, h2, h3⟩ | ⟨h1, h2, h3⟩
      · left
        refine ⟨h1, ?_, ?_⟩
        · rw [h2, List.flatten_cons, List.append_assoc]
        · rw [List.flatten_cons, ← List.append_assoc]
          exact_mod_cast h3
      · right
        refine ⟨h1, h2, ?_⟩
        rw [h3, List.flatten_cons, List.append_assoc]

/-! ### Claim theorems: pagination -/

/-- C1: for every all-ok remote and every maximum count N>0, the record
sequence returned by `listAllFiles` is exactly the length-`min(N, total)`
prefix of the records in fetch order: a page overshoot is truncated at the
tail, and the retained prefix keeps its order. -/
theorem C1_bounded_listing (pages : List (List FileRec)) (N : Int)
    (hN : 0 < N) :
    listAllFiles N (fun _ => pages.map PageFetch.ok) =
      Except.ok (pages.flatten.take N.toNat) ∧
    (pages.flatten.take N.toNat).length = min N.toNat pages.flatten.length := by
  constructor
  · have h0 : ((([] : List FileRec).length : Nat) : Int) < N := by
      simpa using hN
    rcases pagesRun_pos N hN pages [] h0 with ⟨h1, h2, h3⟩ | ⟨h1, h2, h3⟩
    · simp only [List.nil_append] at h2 h3
      simp only [listAllFiles, h1, h2, truncateFiles, if_pos hN]
      have hle : pages.flatten.length ≤ N.toNat := by omega
      rw [Nat.min_eq_left hle, List.take_length, List.take_of_length_le hle]
    · simp only [List.nil_append] at h3
      simp only [listAllFiles, h1, truncateFiles, if_pos hN]
      have hge : N.toNat ≤ (pagesRun N (pages.map PageFetch.ok) []).1.length := by
        omega
      rw [Nat.min_eq_right hge, h3]
  · exact List.length_take _ _

/-- C1 witness: with pages [[fA,fB],[fC]] and N=2, exactly the first two
records come back. -/
theorem C1_bounded_listing_witness :
    (0 : Int) < 2 ∧
    listAllFiles 2 (fun _ => pagesEx.map PageFetch.ok) = Except.ok [fA, fB] := by
  refine ⟨by decide, ?_⟩
  have h := (C1_bounded_listing pagesEx 2 (by decide)).1
  exact h.trans rfl

/-- C3: for maximum count N=0, `listAllFiles` drains an all-ok remote
completely: the controlled stop never fires and every record of every page
comes back untruncated, in order. -/
theorem C3_unbounded_listing (pages : List (List FileRec)) :
    (pagesRun 0 (pages.map PageFetch.ok) []).2 = none ∧
    listAllFiles 0 (fun _ => pages.map PageFetch.ok) = Except.ok pages.flatten := by
  have h := pagesRun_nonpos 0 le_rfl pages []
  have ht : truncateFiles 0 pages.flatten = pages.flatten := by
    simp only [truncateFiles]
    rw [if_neg (by omega : ¬(0 : Int) < 0)]
  constructor
  · rw [h]
  · simp only [listAllFiles, h, List.nil_append, ht]

/-- C9: a negative maximum count behaves exactly like the unbounded case
N=0: page size 1000, the controlled stop never fires, no truncation, and
an all-ok remote is drained completely. -/
theorem C9_negative_maxfiles (N : Int) (hN : N < 0)
    (pages : List (List FileRec)) :
    pageSize N = 1000 ∧
    (∀ remote : Int → List PageFetch,
      listAllFiles N remote = listAllFiles 0 remote) ∧
    (∀ (fetches : List PageFetch) (acc : List FileRec),
      (pagesRun N fetches acc).2 ≠ some GoErr.controlledStop) ∧
    listAllFiles N (fun _ => pages.map PageFetch.ok) = Except.ok pages.flatten := by
  have hN0 : N ≤ 0 := le_of_lt hN
  have hps : pageSize N = pageSize 0 := by
    simp only [pageSize]
    have h1 : ¬(0 < N ∧ N < 1000) := by omega
    have h2 : ¬((0 : Int) < 0 ∧ (0 : Int) < 1000) := by omega
    rw [if_neg h1, if_neg h2]
  have htrunc : ∀ fs : List FileRec, truncateFiles N fs = truncateFiles 0 fs := by
    intro fs
    simp only [truncateFiles]
    have h1 : ¬(0 : Int) < N := by omega
    have h2 : ¬(0 : Int) < 0 := by omega
    rw [if_neg h1, if_neg h2]
  refine ⟨?_, ?_, ?_, ?_⟩
  · simp only [pageSize]
    have h1 : ¬(0 < N ∧ N < 1000) := by omega
    rw [if_neg h1]
  · intro remote
    simp only [listAllFiles, hps,
      pagesRun_nonpos_eq N 0 hN0 le_rfl (remote (pageSize 0)) [], htrunc]
  · exact pagesRun_nonpos_no_stop N hN0
  · have h := pagesRun_nonpos N hN0 pages []
    have ht : truncateFiles N pages.flatten = pages.flatten := by
      simp only [truncateFiles]
      rw [if_neg (by omega : ¬(0 : Int) < N)]
    simp only [listAllFiles, h, List.nil_append, ht]

/-- C9 witness: with N=-5 the page size is 1000 and every record of the
sample pages comes back. -/
theorem C9_negative_maxfiles_witness :
    (-5 : Int) < 0 ∧ pageSize (-5) = 1000 ∧
    listAllFiles (-5) (fun _ => pagesEx.map PageFetch.ok) =
      Except.ok [fA, fB, fC] := by
  obtain ⟨h1, _, _, h4⟩ := C9_negative_maxfiles (-5) (by decide) pagesEx
  exact ⟨by decide, h1, h4.trans rfl⟩

/-- C2: `listAllFiles` never returns the controlled-stop sentinel: a
sentinel-terminated pagination yields a successful (truncated) result,
while a genuine fetch failure is returned unchanged by `listAllFiles` and
wrapped with context by `List`. -/
theorem C2_sentinel_never_surfaced (maxFiles : Int)
    (remote : Int → List PageFetch) :
    (∀ e, listAllFiles maxFiles remote = Except.error e →
      e ≠ GoErr.controlledStop) ∧
    ((pagesRun maxFiles (remote (pageSize maxFiles)) []).2 =
        some GoErr.controlledStop →
      listAllFiles maxFiles remote =
        Except.ok (truncateFiles maxFiles
          (pagesRun maxFiles (remote (pageSize maxFiles)) []).1)) ∧
    (∀ msg,
      (pagesRun maxFiles (remote (pageSize maxFiles)) []).2 =
        some (GoErr.apiErr msg) →
      listAllFiles maxFiles remote = Except.error (GoErr.apiErr msg) ∧
      ∀ (a : ListFilesArgs) (resolve : FileRec → String × Option String),
        a.maxFiles = maxFiles →
        (List' a remote resolve).err =
          some (ListError.listFailed (GoErr.apiErr msg))) := by
  rcases hsc : (pagesRun maxFiles (remote (pageSize maxFiles)) []).2 with _ | e0
  · refine ⟨?_, ?_, ?_⟩
    · intro e he
      simp [listAllFiles, hsc] at he
    · intro h
      simp at h
    · intro msg h
      simp at h
  · cases e0 with
    | controlledStop =>
      refine ⟨?_, ?_, ?_⟩
      · intro e he
        simp [listAllFiles, hsc] at he
      · intro _
        simp [listAllFiles, hsc]
      · intro msg h
        simp at h
    | apiErr m =>
      refine ⟨?_, ?_, ?_⟩
      · intro e he
        simp [listAllFiles, hsc] at he
        intro hc
        rw [← he] at hc
        exact GoErr.noConfusion hc
      · intro h
        simp at h
      · intro msg h
        have hm : m = msg := by simpa using h
        subst hm
        constructor
        · simp [listAllFiles, hsc]
        · intro a resolve ha
          simp [List', ha, listAllFiles, hsc]

/-- C2 witness: a remote whose first fetch fails with "boom" makes
`listAllFiles` return that very error and `List` wrap it. -/
theorem C2_sentinel_never_surfaced_witness :
    (pagesRun 0 (remoteErr (pageSize 0)) []).2 = some (GoErr.apiErr "boom") ∧
    listAllFiles 0 remoteErr = Except.error (GoErr.apiErr "boom") ∧
    (List' argsEx remoteErr resolveOk).err =
      some (ListError.listFailed (GoErr.apiErr "boom")) := by
  have h := (C2_sentinel_never_surfaced 0 remoteErr).2.2 "boom" rfl
  exact ⟨rfl, h.1, h.2 argsEx resolveOk rfl⟩

/-- C4: the page size handed to the remote service never exceeds 1000;
with a positive maximum N it never exceeds min(N,1000), equalling N when
0<N<1000 and 1000 otherwise. -/
theorem C4_page_size (N : Int) :
    pageSize N ≤ 1000 ∧
    (0 < N → pageSize N ≤ min N 1000) ∧
    (0 < N → N < 1000 → pageSize N = N) ∧
    (¬(0 < N ∧ N < 1000) → pageSize N = 1000) := by
  simp only [pageSize]
  split <;> omega

/-- C4 witness: N=5 gives page size 5; N=2000 gives page size 1000. -/
theorem C4_page_size_witness :
    (0 : Int) < 5 ∧ (5 : Int) < 1000 ∧ pageSize 5 = 5 ∧
    ¬((0 : Int) < 2000 ∧ (2000 : Int) < 1000) ∧ pageSize 2000 = 1000 :=
  ⟨by decide, by decide, (C4_page_size 5).2.2.1 (by decide) (by decide),
   by decide, (C4_page_size 2000).2.2.2 (by decide)⟩

/-! ### Absolute-path loop lemmas -/

/-- `sameNonName` is reflexive. -/
theorem sameNonName_refl (f : FileRec) : sameNonName f f := by
  simp [sameNonName]

/-- The absolute-path loop preserves the number of records. -/
theorem absPathPhase_length (resolve : FileRec → String × Option String) :
    ∀ files : List FileRec,
      (absPathPhase resolve files).1.length = files.length := by
  intro files
  induction files with
  | nil => simp [absPathPhase]
  | cons f rest ih =>
    rcases hr : (resolve f).2 with _ | e
    · simp [absPathPhase, hr, ih]
    · simp [absPathPhase, hr]

/-- The absolute-path loop never touches a field other than `name`. -/
theorem absPathPhase_sameNonName (resolve : FileRec → String × Option String) :
    ∀ (files : List FileRec) (i : Nat),
      sameNonName ((absPathPhase resolve files).1.getD i default)
        (files.getD i default) := by
  intro files
  induction files with
  | nil => intro i; simp [absPathPhase, sameNonName]
  | cons f rest ih =>
    intro i
    rcases hr : (resolve f).2 with _ | e
    · cases i with
      | zero => simp [absPathPhase, hr, sameNonName]
      | succ j => simpa [absPathPhase, hr] using ih j
    · cases i with
      | zero => simp [absPathPhase, hr, sameNonName]
      | succ j => simp [absPathPhase, hr, sameNonName_refl]

/-- If resolution first fails at position `k`, the loop stops with that
error and every earlier record carries its resolved path as its name. -/
theorem absPathPhase_fail (resolve : FileRec → String × Option String) :
    ∀ (files : List FileRec) (k : Nat) (e : String),
      k < files.length →
      (∀ i, i < k → (resolve (files.getD i default)).2 = none) →
      (resolve (files.getD k default)).2 = some e →
      (absPathPhase resolve files).2 = some e ∧
      ∀ i, i < k →
        ((absPathPhase resolve files).1.getD i default).name =
          (resolve (files.getD i default)).1 := by
  intro files
  induction files with
  | nil =>
    intro k e hk
    simp at hk
  | cons f rest ih =>
    intro k e hk hok hfail
    cases k with
    | zero =>
      have hf : (resolve f).2 = some e := by simpa using hfail
      constructor
      · simp [absPathPhase, hf]
      · intro i hi
        omega
    | succ k2 =>
      have hf0 : (resolve f).2 = none := by
        have := hok 0 (by omega)
        simpa using this
      have hrest := ih k2 e (by simpa using hk)
        (fun i hi => by simpa using hok (i + 1) (by omega))
        (by simpa using hfail)
      constructor
      · simp [absPathPhase, hf0, hrest.1]
      · intro i hi
        cases i with
        | zero => simp [absPathPhase, hf0]
        | succ j => simpa [absPathPhase, hf0] using hrest.2 j (by omega)

/-! ### Claim theorems: List and rendering -/

/-- C5: in absolute-path mode a path-resolution failure makes `List`
return that error unchanged, with no render output produced (neither a
header nor a record row reaches any sink). -/
theorem C5_abs_path_abort (a : ListFilesArgs) (remote : Int → List PageFetch)
    (resolve : FileRec → String × Option String)
    (files : List FileRec) (msg : String)
    (habs : a.absPath = true)
    (hlist : listAllFiles a.maxFiles remote = Except.ok files)
    (hfail : (absPathPhase resolve files).2 = some msg) :
    (List' a remote resolve).err = some (ListError.pathFailed msg) ∧
    (List' a remote resolve).output = none := by
  simp [List', hlist, habs, hfail]

/-- C5 witness: with the sample remote and a resolver failing on the
second record, `List` returns the resolution error and renders nothing. -/
theorem C5_abs_path_abort_witness :
    argsAbs.absPath = true ∧
    listAllFiles argsAbs.maxFiles remoteOkEx = Except.ok [fA, fB, fC] ∧
    (absPathPhase resolveFail [fA, fB, fC]).2 = some "unresolved" ∧
    (List' argsAbs remoteOkEx resolveFail).err =
      some (ListError.pathFailed "unresolved") ∧
    (List' argsAbs remoteOkEx resolveFail).output = none := by
  have h := C5_abs_path_abort argsAbs remoteOkEx resolveFail [fA, fB, fC]
    "unresolved" rfl (by rfl) (by rfl)
  exact ⟨rfl, by rfl, by rfl, h.1, h.2⟩

/-- C6: CSV rows have exactly 7 fields in extended mode and 5 otherwise,
tabbed rows always have exactly 5, and the header row with the column
names is emitted exactly when skip-header is not set. -/
theorem C6_row_shapes (a : PrintFileListArgs) :
    (∀ r ∈ (PrintFileList a).rows,
      r.length = if a.useExtended then 7 else 5) ∧
    (∀ r ∈ (PrintTabbedFileList a).rows, r.length = 5) ∧
    ((PrintFileList a).header =
      if a.skipHeader then none
      else some (if a.useExtended then
        ["Id", "Name", "Type", "Size", "Created", "Checksum", "HeadRevisionId"]
        else ["Id", "Name", "Type", "Size", "Created"])) ∧
    ((PrintTabbedFileList a).header =
      if a.skipHeader then none
      else some ["Id", "Name", "Type", "Size", "Created"]) := by
  refine ⟨?_, ?_, ?_, ?_⟩
  · intro r hr
    simp only [PrintFileList, List.mem_map] at hr
    obtain ⟨f, _, rfl⟩ := hr
    cases hext : a.useExtended <;> simp [csvRecord, hext]
  · intro r hr
    simp only [PrintTabbedFileList, List.mem_map] at hr
    obtain ⟨f, _, rfl⟩ := hr
    simp [tabbedRecord]
  · cases hext : a.useExtended <;> cases hskip : a.skipHeader <;>
      simp [PrintFileList, csvHeaders, hext, hskip]
  · cases hskip : a.skipHeader <;> simp [PrintTabbedFileList, hskip]

/-- C6 witness: on the sample non-extended print arguments, the first CSV
row has 5 fields and the header lists the five column names. -/
theorem C6_row_shapes_witness :
    (csvRecord pargsEx.useExtended pargsEx.nameWidth pargsEx.sizeInBytes fA)
      ∈ (PrintFileList pargsEx).rows ∧
    (csvRecord pargsEx.useExtended pargsEx.nameWidth pargsEx.sizeInBytes
      fA).length = 5 ∧
    (PrintFileList pargsEx).header =
      some ["Id", "Name", "Type", "Size", "Created"] := by
  have h := C6_row_shapes pargsEx
  have hm : (csvRecord pargsEx.useExtended pargsEx.nameWidth
      pargsEx.sizeInBytes fA) ∈ (PrintFileList pargsEx).rows := by
    simp [PrintFileList, pargsEx, listPrintArgs]
  refine ⟨hm, ?_, ?_⟩
  · have := h.1 _ hm
    simpa using this
  · have := h.2.2.1
    simpa using this

/-- C7 evaluation: `List` with `UseCsv` sends the CSV rendering to the
process stdout even though the caller supplied a different `Out` sink —
`PrintFileList` builds its writer on `os.Stdout`, line 124. -/
theorem C7_csv_output_to_stdout :
    argsEx.useCsv = true ∧
    argsEx.out = Dest.sink 1 ∧
    ((List' argsEx remoteOkEx resolveOk).output.map RenderOutput.dest) =
      some Dest.stdout ∧
    Dest.stdout ≠ Dest.sink 1 := by
  refine ⟨rfl, rfl, by rfl, by decide⟩

/-- C8 counterexample: through `List` the delimiter is not configurable —
the print arguments `List` builds carry `'|'` for every input. -/
theorem C8_fixed_delimiter_counterexample :
    (listPrintArgs argsEx [fA]).delimiter = '|' ∧
    ¬ ∃ (a : ListFilesArgs) (fs : List FileRec),
        (listPrintArgs a fs).delimiter ≠ '|' := by
  refine ⟨rfl, ?_⟩
  rintro ⟨a, fs, h⟩
  exact h rfl

/-- C8 (amended): `PrintFileList` configures its writer with the delimiter
its arguments carry, but `List` always passes the fixed delimiter `'|'`
(`ListFilesArgs` has no delimiter field), so the delimiter is not
selectable through `List`. -/
theorem C8_delimiter :
    (∀ a : PrintFileListArgs, (PrintFileList a).fieldSep = a.delimiter) ∧
    (∀ (a : ListFilesArgs) (fs : List FileRec),
      (listPrintArgs a fs).delimiter = '|') :=
  ⟨fun _ => rfl, fun _ _ => rfl⟩

/-- C10: the absolute-path loop rewrites names in place, in order: record
count and every field other than `name` are preserved; when resolution
first fails at position k, the error is returned and the k earlier records
keep their resolved-path names; and `List` exposes the mutated records. -/
theorem C10_inplace_rename (resolve : FileRec → String × Option String)
    (files : List FileRec) :
    (absPathPhase resolve files).1.length = files.length ∧
    (∀ i : Nat, sameNonName ((absPathPhase resolve files).1.getD i default)
      (files.getD i default)) ∧
    (∀ (k : Nat) (e : String), k < files.length →
      (∀ i, i < k → (resolve (files.getD i default)).2 = none) →
      (resolve (files.getD k default)).2 = some e →
      (absPathPhase resolve files).2 = some e ∧
      ∀ i, i < k →
        ((absPathPhase resolve files).1.getD i default).name =
          (resolve (files.getD i default)).1) ∧
    (∀ (a : ListFilesArgs) (remote : Int → List PageFetch),
      a.absPath = true →
      listAllFiles a.maxFiles remote = Except.ok files →
      (List' a remote resolve).filesAfter = (absPathPhase resolve files).1) := by
  refine ⟨absPathPhase_length resolve files,
    absPathPhase_sameNonName resolve files,
    absPathPhase_fail resolve files, ?_⟩
  intro a remote habs hlist
  simp only [List', hlist, habs, if_true]
  rcases h2 : (absPathPhase resolve files).2 with _ | msg <;> simp [h2]

/-- C10 witness: failing on the second sample record leaves the first
record renamed to its resolved path, keeps every non-name field of the
second, and returns the resolution error. -/
theorem C10_inplace_rename_witness :
    (absPathPhase resolveFail [fA, fB, fC]).2 = some "unresolved" ∧
    ((absPathPhase resolveFail [fA, fB, fC]).1.getD 0 default).name =
      "/r/alpha" ∧
    sameNonName ((absPathPhase resolveFail [fA, fB, fC]).1.getD 1 default)
      fB := by
  have h := C10_inplace_rename resolveFail [fA, fB, fC]
  have h3 := h.2.2.1 1 "unresolved" (by decide)
    (by
      intro i hi
      have hi0 : i = 0 := by omega
      subst hi0
      rfl)
    (by rfl)
  refine ⟨h3.1, ?_, ?_⟩
  · have hn := h3.2 0 (by decide)
    exact hn.trans rfl
  · exact h.2.1 1

end GDrive
